import Mathlib

/-!
Verification of the Unified Event Analytics Engine core.

This file embeds the data model and operations of the analytics engine
(credential store, event store aggregations, cache layer orchestration)
as executable Lean definitions, translated from the JavaScript source,
and proves or refutes the behavioural claims made about them.

Conventions of the embedding:
* timestamps are milliseconds since the epoch, as `Int`;
* a calendar date (`YYYY-MM-DD`) is represented by its day index `d`,
  with `dayMs d` its UTC midnight in milliseconds;
* `bcrypt` hashing is modelled extensionally: a record stores the
  plaintext that was hashed (`hashedKey`) and `bcrypt.compare(k, h)`
  is `k == hashedKey` (no collisions);
* a JavaScript value that may be `undefined` is an `Option`;
  the JS `||` fallback on strings (where `""` is falsy) is `jsOrStr`;
* Mongo documents created by the collect route never hold an explicit
  `null` user id (an absent body field leaves the path unset), so the
  stored `userId` is `Option String` and `$addToSet`/`$push` skip `none`
  exactly as the aggregation pipeline skips a missing field.
-/

namespace AnalyticsEngine

/-- JS `a || b` on possibly-undefined strings: `undefined` and `""` are falsy. -/
def jsOrStr (a b : Option String) : Option String :=
  match a with
  | some s => if s = "" then b else some s
  | none => b

/-- One year in milliseconds (`365 * 24 * 60 * 60 * 1000`), the default key expiry. -/
def YEAR_MS : Int := 365 * 24 * 60 * 60 * 1000

/-- One day in milliseconds. -/
def DAY_MS : Int := 86400000

/-- One hour in milliseconds. -/
def HOUR_MS : Int := 3600000

/-- One minute in milliseconds. -/
def MINUTE_MS : Int := 60000

/-- UTC midnight of calendar day `d`, in milliseconds. -/
def dayMs (d : Int) : Int := d * DAY_MS

/-- An `Application` record (models/Application.js): identity of a registered
client.  `hashedKey` models `apiKeyHash` extensionally (the plaintext that was
bcrypt-hashed); `isActive` and `expiresAt` have schema defaults `true` and
one year from creation. -/
structure Application where
  appId : String
  name : String
  domain : String
  type : String
  createdBy : String
  hashedKey : String
  isActive : Bool
  expiresAt : Int
deriving Repr, DecidableEq

/-- `application.verifyApiKey(apiKey)`: bcrypt comparison of the presented key
against the stored salted hash, modelled extensionally. -/
def verifyApiKey (app : Application) (apiKey : String) : Bool :=
  apiKey == app.hashedKey

/-- `application.isExpired()`: `this.expiresAt < new Date()`. -/
def isExpired (app : Application) (now : Int) : Bool :=
  decide (app.expiresAt < now)

/-- The scan loop of `Application.findByApiKey`: test each enumerated record,
return the first that verifies and is unexpired. -/
def findByApiKeyScan : List Application → String → Int → Option Application
  | [], _, _ => none
  | app :: rest, apiKey, now =>
    if verifyApiKey app apiKey && !(isExpired app now) then some app
    else findByApiKeyScan rest apiKey now

/-- `Application.findByApiKey(apiKey)`: enumerate the active records
(`find({ isActive: true })`) and scan them for the first verifying,
unexpired match; `null` when none matches. -/
def findByApiKey (apps : List Application) (apiKey : String) (now : Int) : Option Application :=
  findByApiKeyScan (apps.filter (·.isActive)) apiKey now

/-- An error envelope produced by the auth middleware: HTTP status plus the
`error` and `message` fields of the JSON body. -/
structure ErrorResponse where
  status : Nat
  error : String
  message : String
deriving Repr, DecidableEq

/-- Outcome of the API-key authentication middleware. -/
inductive AuthResult where
  | ok (app : Application)
  | unauthorized (resp : ErrorResponse)
deriving Repr, DecidableEq

/-- Response sent when no API key is presented. -/
def missingKeyResponse : ErrorResponse :=
  ⟨401, "Authentication required",
    "API key is missing. Please provide a valid API key in the x-api-key header."⟩

/-- Response sent when `findByApiKey` returns no record. -/
def invalidKeyResponse : ErrorResponse :=
  ⟨401, "Invalid API key", "The provided API key is invalid or expired."⟩

/-- Response of the (unreachable) inactive-application branch. -/
def inactiveAppResponse : ErrorResponse :=
  ⟨401, "Application inactive", "This application has been deactivated."⟩

/-- The `authenticateApiKey` middleware (middleware/auth.js): a missing (or
empty, hence falsy) presented key is `none`; otherwise the store is scanned
and a `null` result or an inactive record yields an error envelope. -/
def authenticateApiKey (apps : List Application) (presentedKey : Option String) (now : Int) :
    AuthResult :=
  match presentedKey with
  | none => .unauthorized missingKeyResponse
  | some apiKey =>
    match findByApiKey apps apiKey now with
    | none => .unauthorized invalidKeyResponse
    | some app =>
      if !app.isActive then .unauthorized inactiveAppResponse
      else .ok app

/-- `registerApplication` (controllers/auth.js + schema defaults): create a
record with the freshly generated key (`newKey`), active, expiring one year
from now, and append it to the store.  The pre-save hook hashes the key, so
`hashedKey := newKey`. -/
def registerApplication (apps : List Application)
    (appId name domain type createdBy newKey : String) (now : Int) :
    Application × List Application :=
  let app : Application :=
    { appId := appId, name := name, domain := domain, type := type,
      createdBy := createdBy, hashedKey := newKey,
      isActive := true, expiresAt := now + YEAR_MS }
  (app, apps ++ [app])

/-- `revokeApiKey` (controllers/auth.js): `findOneAndUpdate({_id, createdBy},
{isActive: false}, {new: true})` — flip the active flag of the first record
matching both ids, returning the updated record; `none` when no record
matches. -/
def revokeApiKey : List Application → String → String → Option Application × List Application
  | [], _, _ => (none, [])
  | app :: rest, appId, userId =>
    if app.appId == appId && app.createdBy == userId then
      let updated := { app with isActive := false }
      (some updated, updated :: rest)
    else
      let r := revokeApiKey rest appId userId
      (r.1, app :: r.2)

/-- `regenerateApiKey` (controllers/auth.js lines 156-207): find the record by
`{_id, createdBy}`, then set a fresh key, force `isActive := true` and reset
the expiry to one year from now; the pre-save hook rehashes the modified key. -/
def regenerateApiKey : List Application → String → String → String → Int →
    Option Application × List Application
  | [], _, _, _, _ => (none, [])
  | app :: rest, appId, userId, newKey, now =>
    if app.appId == appId && app.createdBy == userId then
      let updated := { app with hashedKey := newKey, isActive := true,
                                expiresAt := now + YEAR_MS }
      (some updated, updated :: rest)
    else
      let r := regenerateApiKey rest appId userId newKey now
      (r.1, app :: r.2)

/-- Enrichment metadata stored with an event (models/Event.js `metadata`). -/
structure EventMetadata where
  browser : Option String
  os : Option String
  screenSize : Option String
  country : Option String
  city : Option String
  language : Option String
  timezone : Option String
  platform : Option String
deriving Repr, DecidableEq

/-- Metadata with every field unset. -/
def emptyMetadata : EventMetadata :=
  ⟨none, none, none, none, none, none, none, none⟩

/-- An analytics `Event` document (models/Event.js).  `userId` and `sessionId`
are sparse: an absent field is `none` and is skipped by `$addToSet`/grouping
exactly as Mongo skips a missing path. -/
structure Event where
  appId : String
  event : String
  userId : Option String
  sessionId : Option String
  url : String
  referrer : Option String
  device : String
  ipAddress : String
  metadata : EventMetadata
  timestamp : Int
deriving Repr, DecidableEq

/-- Lower timestamp bound of a match stage: `timestamp.$gte = new Date(startDate)`
(UTC midnight of the start day, used as-is); `true` when no start date is given. -/
def startOk (startDay : Option Int) (t : Int) : Bool :=
  match startDay with
  | none => true
  | some d => decide (dayMs d ≤ t)

/-- Upper timestamp bound of a match stage:
`timestamp.$lte = new Date(endDate + 'T23:59:59.999Z')`, the last millisecond
of the end day; `true` when no end date is given. -/
def endOk (endDay : Option Int) (t : Int) : Bool :=
  match endDay with
  | none => true
  | some d => decide (t ≤ dayMs d + (DAY_MS - 1))

/-- The `$match` stage of `Event.getEventSummary`: application id, event name,
and the optional date-range bounds. -/
def matchesSummary (appId eventName : String) (startDay endDay : Option Int) (ev : Event) : Bool :=
  ev.appId == appId && ev.event == eventName &&
    startOk startDay ev.timestamp && endOk endDay ev.timestamp

/-- The `$match` stage of `getAppAnalytics` and `getTotalUsers`
(controllers/analytics.js): application id plus the same date bounds,
with no event-name filter. -/
def matchesApp (appId : String) (startDay endDay : Option Int) (ev : Event) : Bool :=
  ev.appId == appId && startOk startDay ev.timestamp && endOk endDay ev.timestamp

/-- Result shape of `Event.getEventSummary`. -/
structure EventSummary where
  count : Nat
  uniqueUsers : Nat
  mobile : Nat
  desktop : Nat
  tablet : Nat
deriving Repr, DecidableEq

/-- `Event.getEventSummary(appId, event, startDate, endDate)` (models/Event.js):
count of matching events, `uniqueUsers` as the size of the `$addToSet` of user
ids (a missing `userId` is skipped by `$addToSet`), and the device breakdown.
An empty match yields the all-zero summary the route substitutes. -/
def getEventSummary (events : List Event) (appId eventName : String)
    (startDay endDay : Option Int) : EventSummary :=
  let matched := events.filter (matchesSummary appId eventName startDay endDay)
  { count := matched.length
    uniqueUsers := ((matched.filterMap (·.userId)).dedup).length
    mobile := (matched.filter (·.device == "mobile")).length
    desktop := (matched.filter (·.device == "desktop")).length
    tablet := (matched.filter (·.device == "tablet")).length }

/-- `getTotalUsers` (controllers/analytics.js): `$group {_id: '$userId'}` then
`$count` — the number of distinct `userId` values among the application's
events in range, where all the events with a missing user id form one `null`
group. -/
def getTotalUsers (events : List Event) (appId : String) (startDay endDay : Option Int) : Nat :=
  (((events.filter (matchesApp appId startDay endDay)).map (·.userId)).dedup).length

/-- JS `Math.round`: round half toward positive infinity. -/
def jsMathRound (q : ℚ) : ℤ := ⌊q + 1 / 2⌋

/-- `Math.round(change * 100) / 100`: round to two decimal places. -/
def round2 (q : ℚ) : ℚ := (jsMathRound (q * 100) : ℚ) / 100

/-- A trend result `{change, trend}`. -/
structure Trend where
  change : ℚ
  trend : String
deriving Repr, DecidableEq

/-- The comparison step of `calculateEventTrend` (controllers/analytics.js
lines 597-611): fixed classifications when the previous count is zero,
otherwise the rounded percentage change with the trend given by the sign of
the unrounded change. -/
def trendOf (currentCount previousCount : Nat) : Trend :=
  if previousCount = 0 then
    if 0 < currentCount then { change := 100, trend := "up" }
    else { change := 0, trend := "stable" }
  else
    let change : ℚ := (((currentCount : ℚ) - (previousCount : ℚ)) / (previousCount : ℚ)) * 100
    { change := round2 change
      trend := if 0 < change then "up" else if change < 0 then "down" else "stable" }

/-- `calculateEventTrend(appId, event, startDate, endDate)` for a given date
range: `periodMs = currentEnd - currentStart`, so the previous period starts
at day `2*startDay - endDay` and ends at day `startDay` (the ISO date of
`currentStart - periodMs` and `currentEnd - periodMs`); both periods are then
counted through `getEventSummary`, whose end bound is extended to the last
millisecond of the end day. -/
def calculateEventTrend (events : List Event) (appId eventName : String)
    (startDay endDay : Int) : Trend :=
  trendOf
    ((getEventSummary events appId eventName (some startDay) (some endDay)).count)
    ((getEventSummary events appId eventName (some (2 * startDay - endDay)) (some startDay)).count)

/-- Character-list prefix test (used to model trailing-star glob patterns). -/
def listStarts : List Char → List Char → Bool
  | [], _ => true
  | _ :: _, [] => false
  | c :: cs, d :: ds => c == d && listStarts cs ds

/-- Character-list substring test. -/
def hasSub (needle : List Char) : List Char → Bool
  | [] => listStarts needle []
  | c :: rest => listStarts needle (c :: rest) || hasSub needle rest

/-- String prefix test: `strStarts p s` holds when `s` starts with `p`. -/
def strStarts (p s : String) : Bool := listStarts p.toList s.toList

/-- JS `hay.includes(needle)`. -/
def strContains (needle hay : String) : Bool := hasSub needle.toList hay.toList

/-- Caller-supplied `metadata` object of a collect request (the fields the
collect route reads from it). -/
structure CallerMetadata where
  browser : Option String
  os : Option String
  screenSize : Option String
deriving Repr, DecidableEq

/-- Output of the client-agent parser as the collect route reads it:
`userAgentData.browser.name`, `userAgentData.os.name`,
`userAgentData.platform`, `userAgentData.deviceCategory`. -/
structure ParsedUserAgent where
  browser : Option String
  os : Option String
  platform : Option String
  deviceCategory : Option String
deriving Repr, DecidableEq

/-- Result of `geoip.lookup(ipAddress)`; `none` models a `null` lookup. -/
structure GeoInfo where
  country : Option String
  city : Option String
deriving Repr, DecidableEq

/-- The `metadata` object built by `POST /collect` (routes/analytics.js lines
146-155): `browser: userAgentData.browser.name || metadata.browser`,
`os: userAgentData.os.name || metadata.os`, `screenSize: metadata.screenSize`,
`country: geo?.country`, `city: geo?.city`,
`language: req.get('Accept-Language')?.split(',')[0]`, the server timezone,
and the parser platform. -/
def buildEventMetadata (callerMeta : CallerMetadata) (ua : ParsedUserAgent)
    (geo : Option GeoInfo) (acceptLanguage : Option String) (serverTimezone : String) :
    EventMetadata :=
  { browser := jsOrStr ua.browser callerMeta.browser
    os := jsOrStr ua.os callerMeta.os
    screenSize := callerMeta.screenSize
    country := match geo with | some g => g.country | none => none
    city := match geo with | some g => g.city | none => none
    language := acceptLanguage.map (fun s => (s.splitOn ",").headD s)
    timezone := some serverTimezone
    platform := ua.platform }

/-- A flat key-value cache (the Redis string keyspace; TTLs are irrelevant to
invalidation and omitted here). -/
abbrev KvCache := List (String × String)

/-- `redisClient.get`. -/
def cacheGet (cache : KvCache) (key : String) : Option String :=
  (cache.find? (fun kv => kv.1 == key)).map (·.2)

/-- Cache key of the event-summary aggregation:
`event-summary:${appId}:${event}:${startDate || ''}:${endDate || ''}`. -/
def eventSummaryCacheKey (appId eventName startStr endStr : String) : String :=
  "event-summary:" ++ appId ++ ":" ++ eventName ++ ":" ++ startStr ++ ":" ++ endStr

/-- Cache key of the user-stats aggregation: `user-stats:${appId}:${userId}`. -/
def userStatsCacheKey (appId userId : String) : String :=
  "user-stats:" ++ appId ++ ":" ++ userId

/-- Cache key of the app-wide analytics aggregation:
`app-analytics:${appId}:${startDate || ''}:${endDate || ''}`. -/
def appAnalyticsCacheKey (appId startStr endStr : String) : String :=
  "app-analytics:" ++ appId ++ ":" ++ startStr ++ ":" ++ endStr

/-- The invalidation patterns built by `POST /collect` (routes/analytics.js
lines 164-168).  Every pattern ends in `*`, so each is represented by its
prefix: `event-summary:${appId}:`, `user-stats:${userId || sessionId}:` and
`analytics:${appId}:` (a template literal renders two `undefined` operands of
`||` as the string `undefined`). -/
def cachePatterns (appIdStr : String) (userId sessionId : Option String) : List String :=
  ["event-summary:" ++ appIdStr ++ ":",
   "user-stats:" ++ (match jsOrStr userId sessionId with
                     | some s => s
                     | none => "undefined") ++ ":",
   "analytics:" ++ appIdStr ++ ":"]

/-- The sweep `keys(pattern)` + `del(keys)` for each pattern: delete exactly
the keys matched by some trailing-star pattern, i.e. having one of the
pattern prefixes. -/
def sweepDelete (cache : KvCache) (patternHeads : List String) : KvCache :=
  cache.filter (fun kv => !(patternHeads.any (fun p => strStarts p kv.1)))

/-- Cache effect of a successful append in `POST /collect`: the pattern sweep
over `cachePatterns` of the writing application and the appended event's
user/session ids. -/
def collectInvalidate (cache : KvCache) (appIdStr : String)
    (userId sessionId : Option String) : KvCache :=
  sweepDelete cache (cachePatterns appIdStr userId sessionId)

/-- Event-summary TTL seconds: `parseInt(process.env.CACHE_TTL_EVENTS) || 300`
with the environment unset. -/
def CACHE_TTL_EVENTS : Nat := 300

/-- User-stats TTL seconds: `parseInt(process.env.CACHE_TTL_STATS) || 120`
with the environment unset. -/
def CACHE_TTL_STATS : Nat := 120

/-- App-analytics TTL seconds: the literal `600` passed to `setEx`. -/
def CACHE_TTL_GENERAL : Nat := 600

/-- `redisClient.get` on a TTL cache holding values of type `α`. -/
def ttlGet {α : Type} (cache : List (String × α × Nat)) (key : String) : Option α :=
  (cache.find? (fun e => e.1 == key)).map (fun e => e.2.1)

/-- `redisClient.setEx(key, ttl, value)`: bind `key` to `value` with the given
TTL, replacing any previous binding. -/
def setEx {α : Type} (cache : List (String × α × Nat)) (key : String) (ttl : Nat) (v : α) :
    List (String × α × Nat) :=
  (key, v, ttl) :: cache.filter (fun e => !(e.1 == key))

/-- The date-string form `${startDate || ''}` used inside cache keys. -/
def dateStr : Option Int → String
  | none => ""
  | some d => toString d

/-- The enhanced event-summary payload (`enhanceEventSummary`): the summary,
a conversion rate when the event name contains `conversion` or `purchase`,
and the trend against the previous period. -/
structure EnhancedSummary where
  summary : EventSummary
  conversionRate : Option ℚ
  trend : Trend
deriving Repr, DecidableEq

/-- `enhanceEventSummary` (controllers/analytics.js lines 473-484):
conversion rate `uniqueUsers / totalUsers * 100` (or `0` when no users) for
conversion/purchase events, plus `calculateEventTrend`, which returns
`{change: 0, trend: 'stable'}` when either date is missing. -/
def enhanceEventSummary (events : List Event) (appId eventName : String)
    (startDay endDay : Option Int) (summary : EventSummary) : EnhancedSummary :=
  { summary := summary
    conversionRate :=
      if strContains "conversion" eventName || strContains "purchase" eventName then
        some (if 0 < getTotalUsers events appId startDay endDay then
                ((summary.uniqueUsers : ℚ) / (getTotalUsers events appId startDay endDay : ℚ)) * 100
              else 0)
      else none
    trend :=
      match startDay, endDay with
      | some s, some e => calculateEventTrend events appId eventName s e
      | _, _ => { change := 0, trend := "stable" } }

/-- The cache-aware read path of `getEventSummary` (controllers/analytics.js
lines 14-87): cache hit returns the stored value; on a miss the summary is
computed from the Event Store, enhanced, written back with the event-summary
TTL — a failing write (`writeFails`) is logged and swallowed — and returned. -/
def getEventSummaryFlow (cache : List (String × EnhancedSummary × Nat)) (writeFails : Bool)
    (events : List Event) (appId eventName : String) (startDay endDay : Option Int) :
    EnhancedSummary × List (String × EnhancedSummary × Nat) :=
  let cacheKey := eventSummaryCacheKey appId eventName (dateStr startDay) (dateStr endDay)
  match ttlGet cache cacheKey with
  | some cached => (cached, cache)
  | none =>
    let result := enhanceEventSummary events appId eventName startDay endDay
      (getEventSummary events appId eventName startDay endDay)
    (result, if writeFails then cache else setEx cache cacheKey CACHE_TTL_EVENTS result)

/-- The cache-aware read path of `getUserStats` (controllers/analytics.js
lines 92-246).  The Event-Store aggregation result is abstracted as the
already-computed `computed`; the definition embeds the cache orchestration:
hit returns the stored value, miss stores `computed` with the user-stats TTL
unless the write fails, and returns it either way. -/
def getUserStatsFlow {α : Type} (cache : List (String × α × Nat)) (writeFails : Bool)
    (computed : α) (appId userId : String) : α × List (String × α × Nat) :=
  let cacheKey := userStatsCacheKey appId userId
  match ttlGet cache cacheKey with
  | some cached => (cached, cache)
  | none =>
    (computed, if writeFails then cache else setEx cache cacheKey CACHE_TTL_STATS computed)

/-- The cache-aware read path of `getAppAnalytics` (controllers/analytics.js
lines 251-386), with the Event-Store aggregation result abstracted as
`computed`; the miss path stores it with the hardcoded 600-second TTL. -/
def getAppAnalyticsFlow {α : Type} (cache : List (String × α × Nat)) (writeFails : Bool)
    (computed : α) (appId startStr endStr : String) : α × List (String × α × Nat) :=
  let cacheKey := appAnalyticsCacheKey appId startStr endStr
  match ttlGet cache cacheKey with
  | some cached => (cached, cache)
  | none =>
    (computed, if writeFails then cache else setEx cache cacheKey CACHE_TTL_GENERAL computed)

/-- Minute-of-hour of an epoch timestamp, the value of Mongo `$minute`:
`0 ≤ minuteOfHour t < 60`. -/
def minuteOfHour (t : Int) : Int := (t % HOUR_MS) / MINUTE_MS

/-- One `{event, count, uniqueUsers}` entry of a real-time bucket. -/
structure RTEventGroup where
  name : String
  count : Nat
  uniqueUsers : Nat
deriving Repr, DecidableEq

/-- One per-minute bucket of `getRealTimeAnalytics`: the `$minute` key, the
per-event-type entries, and the bucket totals (`totalUsers` is the `$size` of
the `$addToSet` of the per-type user arrays, faithful to the pipeline). -/
structure RTBucket where
  minute : Int
  events : List RTEventGroup
  totalEvents : Nat
  totalUsers : Nat
deriving Repr, DecidableEq

/-- The trailing-window filter of `getRealTimeAnalytics`:
`appId` match and `timestamp: {$gte: oneHourAgo}` (no upper bound). -/
def inRealtimeWindow (appId : String) (now : Int) (ev : Event) : Bool :=
  ev.appId == appId && decide (now - HOUR_MS ≤ ev.timestamp)

/-- Build the bucket of one `$minute` value from the window events. -/
def bucketOfMinute (matched : List Event) (m : Int) : RTBucket :=
  let inBucket := matched.filter (fun e => minuteOfHour e.timestamp == m)
  let names := (inBucket.map (·.event)).dedup
  let groups := names.map (fun n =>
    { name := n
      count := (inBucket.filter (·.event == n)).length
      uniqueUsers := (((inBucket.filter (·.event == n)).filterMap (·.userId)).dedup).length })
  { minute := m
    events := groups
    totalEvents := (groups.map (·.count)).sum
    totalUsers := ((names.map (fun n =>
        ((inBucket.filter (·.event == n)).filterMap (·.userId)).dedup)).dedup).length }

/-- `$sort: {minute: -1}` over buckets with pairwise-distinct minute keys. -/
def sortBucketsDesc (l : List RTBucket) : List RTBucket :=
  List.insertionSort (fun a b => b.minute ≤ a.minute) l

/-- `getRealTimeAnalytics` (controllers/analytics.js lines 391-466): filter to
the trailing hour, group per `$minute` value, sort by minute descending, keep
at most 60 buckets, and `reverse()` the array before returning it. -/
def realTimeBuckets (events : List Event) (appId : String) (now : Int) : List RTBucket :=
  let matched := events.filter (inRealtimeWindow appId now)
  let minutes := (matched.map (fun e => minuteOfHour e.timestamp)).dedup
  (((sortBucketsDesc (minutes.map (bucketOfMinute matched))).take 60)).reverse

/-- Chronological ordering of the returned buckets, as the specification
words it: every window event falling in an earlier bucket happened no later
than every window event falling in a later bucket.  This is the property the
bucket list would satisfy if it were ordered oldest to newest. -/
def ChronoOrdered (events : List Event) (appId : String) (now : Int)
    (buckets : List RTBucket) : Prop :=
  List.Pairwise (fun b1 b2 =>
    ∀ e1 ∈ events.filter (inRealtimeWindow appId now),
      ∀ e2 ∈ events.filter (inRealtimeWindow appId now),
        minuteOfHour e1.timestamp = b1.minute →
        minuteOfHour e2.timestamp = b2.minute →
        e1.timestamp ≤ e2.timestamp) buckets

/-- Sample event builder for concrete instances. -/
def mkEvent (appId eventName : String) (userId : Option String) (device : String)
    (ts : Int) : Event :=
  { appId := appId, event := eventName, userId := userId, sessionId := none,
    url := "https://example.test/page", referrer := none, device := device,
    ipAddress := "203.0.113.7", metadata := emptyMetadata, timestamp := ts }

/-- Previous-period count as the specification words it (for comparison with
the source's computation): the number of matching events in the window of
identical length that immediately precedes the current query window
`[dayMs startDay, dayMs endDay + DAY_MS - 1]`, i.e. ending at
`dayMs startDay - 1`. -/
def claimPreviousCount (events : List Event) (appId eventName : String)
    (startDay endDay : Int) : Nat :=
  (events.filter (fun ev =>
    ev.appId == appId && ev.event == eventName &&
      decide (dayMs startDay - (dayMs endDay + DAY_MS - dayMs startDay) ≤ ev.timestamp) &&
      decide (ev.timestamp < dayMs startDay))).length

/-- Trend as the specification words it: the current count against the count
of the immediately preceding, non-overlapping period of identical length. -/
def claimTrend (events : List Event) (appId eventName : String)
    (startDay endDay : Int) : Trend :=
  trendOf
    ((getEventSummary events appId eventName (some startDay) (some endDay)).count)
    (claimPreviousCount events appId eventName startDay endDay)

/-- Four events for the unique-user example: two with no user id, two with
user id `u1`, all the same event name and application. -/
def c2Events : List Event :=
  [mkEvent "appA" "click" none "desktop" 0,
   mkEvent "appA" "click" none "desktop" 1,
   mkEvent "appA" "click" (some "u1") "mobile" 2,
   mkEvent "appA" "click" (some "u1") "mobile" 3]

/-- A purchase event in the first instant range of the current trend window
(one second into its first day). -/
def c6OverlapEvent : Event := mkEvent "appA" "buy" none "desktop" (dayMs 10 + 1000)

/-- A real-time sample: one event at minute 659 of the epoch (minute-of-hour
59) and one at minute 661 (minute-of-hour 1). -/
def rtOldEvent : Event := mkEvent "appA" "viewA" none "desktop" (659 * MINUTE_MS)

/-- The strictly newer real-time sample event, in the next hour. -/
def rtNewEvent : Event := mkEvent "appA" "viewB" none "desktop" (661 * MINUTE_MS)

/-- The two-event real-time store. -/
def rtSample : List Event := [rtOldEvent, rtNewEvent]

/-- The observation instant for the real-time sample: minute 690 of the
epoch, so the trailing hour starts at minute 630 and spans an hour
boundary. -/
def rtNow : Int := 690 * MINUTE_MS

/-- Caller metadata carrying explicit browser and OS values. -/
def sampleCallerMeta : CallerMetadata :=
  ⟨some "CallerBrowser", some "CallerOS", some "1024x768"⟩

/-- Parser output with browser and OS names of its own. -/
def sampleUA : ParsedUserAgent :=
  ⟨some "Chrome", some "Windows", some "Win32", some "desktop"⟩

/-- A cache state computed strictly before an append: one entry in each of
the three key families of application `appA`. -/
def c1StaleCache : KvCache :=
  [(userStatsCacheKey "appA" "u1", "user-stats computed before the append"),
   (appAnalyticsCacheKey "appA" "" "", "app analytics computed before the append"),
   (eventSummaryCacheKey "appA" "click" "" "", "event summary computed before the append")]

/-- The record update performed by `revokeApiKey`. -/
def deactivated (a : Application) : Application := { a with isActive := false }

/-- The record update performed by `regenerateApiKey`: new hash, forced
active flag, expiry reset to one year from now. -/
def regeneratedApp (a : Application) (newKey : String) (now : Int) : Application :=
  { a with hashedKey := newKey, isActive := true, expiresAt := now + YEAR_MS }

/-- Demo store: one active, one revoked and one expired application. -/
def demoActiveApp : Application :=
  ⟨"app1", "Demo", "https://demo.test", "web", "owner1", "ACTIVEKEY123", true, 2000000⟩

/-- A revoked (inactive) application. -/
def demoRevokedApp : Application :=
  ⟨"app2", "Revoked", "https://revoked.test", "web", "owner1", "REVOKEDKEY45", false, 2000000⟩

/-- An expired but still active application. -/
def demoExpiredApp : Application :=
  ⟨"app3", "Expired", "https://expired.test", "mobile", "owner2", "EXPIREDKEY67", true, 500⟩

/-- The demo credential store. -/
def demoApps : List Application := [demoActiveApp, demoRevokedApp, demoExpiredApp]

theorem findByApiKey_eq_find? (apps : List Application) (k : String) (now : Int) :
    findByApiKey apps k now =
      apps.find? (fun a => a.isActive && verifyApiKey a k && !(isExpired a now)) := by
  induction apps with
  | nil => rfl
  | cons a t ih =>
    show findByApiKeyScan ((a :: t).filter (·.isActive)) k now = _
    rw [List.filter_cons]
    cases ha : a.isActive with
    | true =>
      rw [if_pos (by simp [ha])]
      show (if verifyApiKey a k && !(isExpired a now) then some a
            else findByApiKeyScan (t.filter (·.isActive)) k now) = _
      cases hv : (verifyApiKey a k && !(isExpired a now)) with
      | true =>
        rw [if_pos rfl, List.find?_cons_of_pos _ (by simp [ha, hv])]
      | false =>
        rw [if_neg (by simp), List.find?_cons_of_neg _ (by simp [ha, hv])]
        exact ih
    | false =>
      rw [if_neg (by simp [ha])]
      rw [List.find?_cons_of_neg _ (by simp [ha])]
      exact ih

theorem find?_eq_none_of_all_false {α : Type} {l : List α} {p : α → Bool}
    (h : ∀ a ∈ l, p a = false) : l.find? p = none := by
  rw [List.find?_eq_none]
  intro x hx
  simp [h x hx]

/-- C3 counterexample: the claim that all four failure conditions produce
indistinguishable responses is false — a missing key is answered with
`missingKeyResponse`, while a never-issued key is answered with
`invalidKeyResponse`, and the two bodies differ in both their `error` and
`message` fields. -/
theorem c3_missing_key_response_distinguishable :
    authenticateApiKey demoApps none 1000000 = .unauthorized missingKeyResponse
    ∧ authenticateApiKey demoApps (some "NEVERISSUED") 1000000 = .unauthorized invalidKeyResponse
    ∧ missingKeyResponse ≠ invalidKeyResponse := by
  refine ⟨rfl, by decide, by decide⟩

/-- C3 (amended): whenever every record that verifies the presented key is
inactive or expired — covering a never-issued key, an expired key, and a
revoked key alike — the middleware produces exactly the same
`invalidKeyResponse`, so those three conditions are mutually
indistinguishable; only the missing-key condition has a distinct response. -/
theorem c3_invalid_expired_revoked_same_response (apps : List Application) (k : String)
    (now : Int)
    (h : ∀ a ∈ apps, verifyApiKey a k = true → a.isActive = false ∨ isExpired a now = true) :
    authenticateApiKey apps (some k) now = .unauthorized invalidKeyResponse := by
  have hnone : findByApiKey apps k now = none := by
    rw [findByApiKey_eq_find?]
    apply find?_eq_none_of_all_false
    intro a ha
    cases hver : verifyApiKey a k with
    | false => simp [hver]
    | true =>
      rcases h a ha hver with h1 | h1
      · simp [h1]
      · simp [h1]
  simp [authenticateApiKey, hnone]

/-- Witness for `c3_invalid_expired_revoked_same_response`: against the demo
store, a revoked key, an expired key and a never-issued key each yield the
identical `invalidKeyResponse`. -/
theorem c3_same_response_witness :
    authenticateApiKey demoApps (some "REVOKEDKEY45") 1000000 = .unauthorized invalidKeyResponse
    ∧ authenticateApiKey demoApps (some "EXPIREDKEY67") 1000000 = .unauthorized invalidKeyResponse
    ∧ authenticateApiKey demoApps (some "NOSUCHKEY999") 1000000 = .unauthorized invalidKeyResponse :=
  ⟨c3_invalid_expired_revoked_same_response demoApps "REVOKEDKEY45" 1000000 (by decide),
   c3_invalid_expired_revoked_same_response demoApps "EXPIREDKEY67" 1000000 (by decide),
   c3_invalid_expired_revoked_same_response demoApps "NOSUCHKEY999" 1000000 (by decide)⟩

theorem revokeApiKey_append_no_match (l rest : List Application) (i u : String)
    (h : ∀ a ∈ l, (a.appId == i && a.createdBy == u) = false) :
    revokeApiKey (l ++ rest) i u = ((revokeApiKey rest i u).1, l ++ (revokeApiKey rest i u).2) := by
  induction l with
  | nil => simp
  | cons a t ih =>
    have ha := h a (List.mem_cons_self a t)
    rw [List.cons_append]
    show revokeApiKey (a :: (t ++ rest)) i u = _
    simp only [revokeApiKey, ha, Bool.false_eq_true, if_false]
    rw [ih (fun x hx => h x (List.mem_cons_of_mem a hx))]
    simp

theorem regenerateApiKey_append_no_match (l rest : List Application) (i u nk : String)
    (now : Int) (h : ∀ a ∈ l, (a.appId == i && a.createdBy == u) = false) :
    regenerateApiKey (l ++ rest) i u nk now
      = ((regenerateApiKey rest i u nk now).1, l ++ (regenerateApiKey rest i u nk now).2) := by
  induction l with
  | nil => simp
  | cons a t ih =>
    have ha := h a (List.mem_cons_self a t)
    rw [List.cons_append]
    show regenerateApiKey (a :: (t ++ rest)) i u nk now = _
    simp only [regenerateApiKey, ha, Bool.false_eq_true, if_false]
    rw [ih (fun x hx => h x (List.mem_cons_of_mem a hx))]
    simp

theorem scan_pred_false_of_fresh {apps : List Application} {newKey : String} (now : Int)
    (hKey : ∀ a ∈ apps, a.hashedKey ≠ newKey) :
    ∀ a ∈ apps, (a.isActive && verifyApiKey a newKey && !(isExpired a now)) = false := by
  intro a ha
  have hv : verifyApiKey a newKey = false := by
    simp only [verifyApiKey, beq_eq_false_iff_ne]
    exact fun hh => hKey a ha hh.symm
  simp [hv]

/-- C4: issuing a key makes it authenticate to the new record, revoking the
application makes the same key authenticate to nothing, and in general
`findByApiKey` returns the first enumerated active, unexpired record whose
stored hash verifies the presented key — `none` when no such record exists.
The freshness hypotheses say the generated key and application id are new,
the data model's uniqueness invariant. -/
theorem c4_issue_authenticate_revoke (apps : List Application)
    (appId name domain type owner newKey : String) (now : Int)
    (hKey : ∀ a ∈ apps, a.hashedKey ≠ newKey)
    (hId : ∀ a ∈ apps, a.appId ≠ appId) :
    findByApiKey (registerApplication apps appId name domain type owner newKey now).2 newKey now
      = some (registerApplication apps appId name domain type owner newKey now).1
    ∧ findByApiKey
        (revokeApiKey (registerApplication apps appId name domain type owner newKey now).2
          appId owner).2 newKey now = none
    ∧ ∀ (store : List Application) (k : String) (t : Int),
        findByApiKey store k t
          = store.find? (fun a => a.isActive && verifyApiKey a k && !(isExpired a t)) := by
  have hfresh := scan_pred_false_of_fresh now hKey
  have hcond : ((registerApplication apps appId name domain type owner newKey now).1.isActive
      && verifyApiKey (registerApplication apps appId name domain type owner newKey now).1 newKey
      && !(isExpired (registerApplication apps appId name domain type owner newKey now).1 now))
      = true := by
    show (true && (newKey == newKey) && !(decide (now + YEAR_MS < now))) = true
    simp only [beq_self_eq_true, Bool.true_and, Bool.not_eq_true', decide_eq_false_iff_not,
      not_lt, YEAR_MS]
    omega
  refine ⟨?_, ?_, fun store k t => findByApiKey_eq_find? store k t⟩
  · rw [show (registerApplication apps appId name domain type owner newKey now).2
        = apps ++ [(registerApplication apps appId name domain type owner newKey now).1] from rfl]
    rw [findByApiKey_eq_find?, List.find?_append, find?_eq_none_of_all_false hfresh,
      Option.none_or, List.find?_singleton, if_pos hcond]
  · rw [show (registerApplication apps appId name domain type owner newKey now).2
        = apps ++ [(registerApplication apps appId name domain type owner newKey now).1] from rfl]
    rw [revokeApiKey_append_no_match apps _ appId owner
      (fun a ha => by simp [hId a ha])]
    have hrev : revokeApiKey [(registerApplication apps appId name domain type owner
        newKey now).1] appId owner
        = (some (deactivated (registerApplication apps appId name domain type owner
             newKey now).1),
           [deactivated (registerApplication apps appId name domain type owner newKey now).1]) := by
      simp [revokeApiKey, registerApplication, deactivated]
    rw [hrev]
    rw [findByApiKey_eq_find?, List.find?_append, find?_eq_none_of_all_false hfresh,
      Option.none_or, List.find?_singleton, if_neg]
    simp [registerApplication, deactivated]

/-- Witness for `c4_issue_authenticate_revoke` on the demo store with a fresh
key and id: the issued key authenticates to the new record and fails after
revocation. -/
theorem c4_issue_authenticate_revoke_witness :
    findByApiKey
        (registerApplication demoApps "app9" "New" "https://new.test" "web" "owner9"
          "FRESHKEY0001" 1000000).2 "FRESHKEY0001" 1000000
      = some (registerApplication demoApps "app9" "New" "https://new.test" "web" "owner9"
          "FRESHKEY0001" 1000000).1
    ∧ findByApiKey
        (revokeApiKey
          (registerApplication demoApps "app9" "New" "https://new.test" "web" "owner9"
            "FRESHKEY0001" 1000000).2 "app9" "owner9").2 "FRESHKEY0001" 1000000 = none := by
  have h := c4_issue_authenticate_revoke demoApps "app9" "New" "https://new.test" "web"
    "owner9" "FRESHKEY0001" 1000000 (by decide) (by decide)
  exact ⟨h.1, h.2.1⟩

/-- C10: `regenerateApiKey` on any existing record — found by application id
and owner, regardless of its current active flag or expiry — replaces the
stored hash with the new key's, forces the active flag to `true`, resets the
expiry to one year from now, and the new key then authenticates to the
updated record (under key-freshness for the records enumerated before it). -/
theorem c10_regenerate_reactivates (pre post : List Application) (a : Application)
    (appId owner newKey : String) (now : Int)
    (hpre : ∀ p ∈ pre, (p.appId == appId && p.createdBy == owner) = false)
    (ha1 : a.appId = appId) (ha2 : a.createdBy = owner)
    (hkey : ∀ p ∈ pre, p.hashedKey ≠ newKey) :
    (regenerateApiKey (pre ++ a :: post) appId owner newKey now).1
      = some (regeneratedApp a newKey now)
    ∧ (regenerateApiKey (pre ++ a :: post) appId owner newKey now).2
      = pre ++ regeneratedApp a newKey now :: post
    ∧ (regeneratedApp a newKey now).isActive = true
    ∧ (regeneratedApp a newKey now).expiresAt = now + YEAR_MS
    ∧ (regeneratedApp a newKey now).hashedKey = newKey
    ∧ findByApiKey (regenerateApiKey (pre ++ a :: post) appId owner newKey now).2 newKey now
      = some (regeneratedApp a newKey now) := by
  have hstep : regenerateApiKey (a :: post) appId owner newKey now
      = (some (regeneratedApp a newKey now), regeneratedApp a newKey now :: post) := by
    simp [regenerateApiKey, ha1, ha2, regeneratedApp]
  rw [regenerateApiKey_append_no_match pre _ appId owner newKey now hpre, hstep]
  refine ⟨rfl, rfl, rfl, rfl, rfl, ?_⟩
  rw [findByApiKey_eq_find?, List.find?_append,
    find?_eq_none_of_all_false (scan_pred_false_of_fresh now hkey),
    Option.none_or, List.find?_cons_of_pos]
  show ((regeneratedApp a newKey now).isActive
      && verifyApiKey (regeneratedApp a newKey now) newKey
      && !(isExpired (regeneratedApp a newKey now) now)) = true
  show (true && (newKey == newKey) && !(decide (now + YEAR_MS < now))) = true
  simp only [beq_self_eq_true, Bool.true_and, Bool.not_eq_true', decide_eq_false_iff_not,
    not_lt, YEAR_MS]
  omega

/-- Witness for `c10_regenerate_reactivates`: regenerating the revoked demo
application reactivates it and the fresh key authenticates to it. -/
theorem c10_regenerate_reactivates_witness :
    findByApiKey
        (regenerateApiKey [demoActiveApp, demoRevokedApp, demoExpiredApp] "app2" "owner1"
          "REGENKEY0001" 1000000).2 "REGENKEY0001" 1000000
      = some (regeneratedApp demoRevokedApp "REGENKEY0001" 1000000)
    ∧ (regeneratedApp demoRevokedApp "REGENKEY0001" 1000000).isActive = true := by
  have h := c10_regenerate_reactivates [demoActiveApp] [demoExpiredApp] demoRevokedApp
    "app2" "owner1" "REGENKEY0001" 1000000 (by decide) (by decide) (by decide) (by decide)
  exact ⟨h.2.2.2.2.2, h.2.2.1⟩

/-- C2: `uniqueUsers` of an event summary is the number of distinct non-null
user ids among the matching events — the `$addToSet` skips a missing
`userId`, so an event without a user id never changes the count. -/
theorem c2_unique_users_distinct_nonnull (events : List Event) (appId eventName : String)
    (startDay endDay : Option Int) :
    (getEventSummary events appId eventName startDay endDay).uniqueUsers
      = ((events.filter (matchesSummary appId eventName startDay endDay)).filterMap
          (fun ev => ev.userId)).toFinset.card
    ∧ ∀ ev : Event, ev.userId = none →
        (getEventSummary (ev :: events) appId eventName startDay endDay).uniqueUsers
          = (getEventSummary events appId eventName startDay endDay).uniqueUsers := by
  constructor
  · exact (List.card_toFinset _).symm
  · intro ev hnone
    show (((ev :: events).filter _).filterMap _).dedup.length = _
    rw [List.filter_cons]
    by_cases hm : matchesSummary appId eventName startDay endDay ev
    · rw [if_pos (by simp [hm]), List.filterMap_cons_none hnone]
      rfl
    · rw [if_neg (by simp [hm])]
      rfl

/-- Witness for `c2_unique_users_distinct_nonnull`: three events with no user
id and two with user id `u1`, all for the same event name and application,
yield `uniqueUsers = 1`, and dropping one of the null-user events does not
change the count. -/
theorem c2_unique_users_witness :
    (getEventSummary (mkEvent "appA" "click" none "desktop" 4 :: c2Events)
        "appA" "click" none none).uniqueUsers
      = (getEventSummary c2Events "appA" "click" none none).uniqueUsers
    ∧ (getEventSummary (mkEvent "appA" "click" none "desktop" 4 :: c2Events)
        "appA" "click" none none).uniqueUsers = 1
    ∧ (getEventSummary (mkEvent "appA" "click" none "desktop" 4 :: c2Events)
        "appA" "click" none none).count = 5 :=
  ⟨(c2_unique_users_distinct_nonnull c2Events "appA" "click" none none).2 _ rfl,
   by decide, by decide⟩

/-- C9: when an end date is supplied, the timestamp filter's upper bound is
the last millisecond of that day, so an event timestamped at any time on the
end date passes both the app/event test and the end bound, and its inclusion
is decided solely by the start bound (used as-is, midnight UTC inclusive);
the first millisecond of the following day is rejected. -/
theorem c9_end_date_extension (appId eventName : String) (startDay : Option Int)
    (endDay : Int) (ev : Event) (happ : ev.appId = appId) (hev : ev.event = eventName)
    (h1 : dayMs endDay ≤ ev.timestamp) (h2 : ev.timestamp < dayMs endDay + DAY_MS) :
    matchesSummary appId eventName startDay (some endDay) ev = startOk startDay ev.timestamp
    ∧ matchesApp appId startDay (some endDay) ev = startOk startDay ev.timestamp
    ∧ endOk (some endDay) (dayMs endDay + DAY_MS) = false := by
  have hend : endOk (some endDay) ev.timestamp = true := by
    simp only [endOk, decide_eq_true_eq, dayMs, DAY_MS] at h1 h2 ⊢
    omega
  have happ' : (ev.appId == appId) = true := by simp [happ]
  have hev' : (ev.event == eventName) = true := by simp [hev]
  refine ⟨?_, ?_, ?_⟩
  · simp [matchesSummary, happ', hev', hend]
  · simp [matchesApp, happ', hend]
  · simp only [endOk, decide_eq_false_iff_not, dayMs, DAY_MS]
    omega

/-- Witness for `c9_end_date_extension`: an event at 23:59:59.999 UTC of end
day 20 is matched by the summary filter with range days 18 to 20. -/
theorem c9_end_date_extension_witness :
    matchesSummary "appA" "click" (some 18) (some 20)
        (mkEvent "appA" "click" none "desktop" (dayMs 20 + DAY_MS - 1))
      = startOk (some 18) (mkEvent "appA" "click" none "desktop"
          (dayMs 20 + DAY_MS - 1)).timestamp
    ∧ startOk (some 18) (mkEvent "appA" "click" none "desktop"
        (dayMs 20 + DAY_MS - 1)).timestamp = true :=
  ⟨(c9_end_date_extension "appA" "click" (some 18) 20
      (mkEvent "appA" "click" none "desktop" (dayMs 20 + DAY_MS - 1))
      rfl rfl (by decide) (by decide)).1,
   by decide⟩

/-- C6 counterexample: the previous-period count the code compares against is
not the count of the immediately preceding period.  With the range days 10-12
and a single event one second into day 10, the code's previous window (days
8-10, end-of-day extended) already contains that event, so the code reports
`{change: 0, trend: stable}`, while the claim's immediately preceding period
(ending at the last millisecond of day 9) is empty and the claim therefore
demands `{change: 100, trend: up}`. -/
theorem c6_previous_period_overlaps_current :
    calculateEventTrend [c6OverlapEvent] "appA" "buy" 10 12
      = { change := 0, trend := "stable" }
    ∧ claimTrend [c6OverlapEvent] "appA" "buy" 10 12
      = { change := 100, trend := "up" }
    ∧ calculateEventTrend [c6OverlapEvent] "appA" "buy" 10 12
      ≠ claimTrend [c6OverlapEvent] "appA" "buy" 10 12 := by
  have hcur : (getEventSummary [c6OverlapEvent] "appA" "buy" (some 10) (some 12)).count = 1 :=
    by decide
  have hprev : (getEventSummary [c6OverlapEvent] "appA" "buy" (some (2 * 10 - 12))
      (some 10)).count = 1 := by decide
  have hclaimprev : claimPreviousCount [c6OverlapEvent] "appA" "buy" 10 12 = 0 := by decide
  have h11 : trendOf 1 1 = { change := 0, trend := "stable" } := by
    simp only [trendOf]
    norm_num [round2, jsMathRound]
  have h10 : trendOf 1 0 = { change := 100, trend := "up" } := by
    simp [trendOf]
  have hcode : calculateEventTrend [c6OverlapEvent] "appA" "buy" 10 12
      = { change := 0, trend := "stable" } := by
    show trendOf _ _ = _
    rw [hcur, hprev, h11]
  have hclaim : claimTrend [c6OverlapEvent] "appA" "buy" 10 12
      = { change := 100, trend := "up" } := by
    show trendOf _ _ = _
    rw [hcur, hclaimprev, h10]
  refine ⟨hcode, hclaim, ?_⟩
  rw [hcode, hclaim]
  intro h
  have := congrArg Trend.trend h
  simp at this

/-- C6 (amended): the trend compares the current range's count with the count
of the range shifted back by `endDay - startDay` days; both windows get the
end-of-day extension, so they have identical length but the previous window's
last day coincides with the current range's first day (an event on that day
counts toward both periods).  On those two counts the arithmetic is as
claimed: `{0, stable}` and `{100, up}` when the previous count is zero, and
otherwise the percentage change rounded to two decimals with the trend given
by the sign of the change. -/
theorem c6_trend_amended (events : List Event) (appId eventName : String)
    (startDay endDay : Int) :
    calculateEventTrend events appId eventName startDay endDay
      = trendOf ((getEventSummary events appId eventName (some startDay) (some endDay)).count)
          ((getEventSummary events appId eventName (some (2 * startDay - endDay))
            (some startDay)).count)
    ∧ ((getEventSummary events appId eventName (some (2 * startDay - endDay))
          (some startDay)).count = 0 →
        (getEventSummary events appId eventName (some startDay) (some endDay)).count = 0 →
        calculateEventTrend events appId eventName startDay endDay
          = { change := 0, trend := "stable" })
    ∧ ((getEventSummary events appId eventName (some (2 * startDay - endDay))
          (some startDay)).count = 0 →
        0 < (getEventSummary events appId eventName (some startDay) (some endDay)).count →
        calculateEventTrend events appId eventName startDay endDay
          = { change := 100, trend := "up" })
    ∧ (∀ cur prev : Nat, 0 < prev →
        trendOf cur prev
          = { change := round2 ((((cur : ℚ) - (prev : ℚ)) / (prev : ℚ)) * 100)
              trend := if 0 < (((cur : ℚ) - (prev : ℚ)) / (prev : ℚ)) * 100 then "up"
                       else if (((cur : ℚ) - (prev : ℚ)) / (prev : ℚ)) * 100 < 0 then "down"
                       else "stable" })
    ∧ (∀ ev ∈ events, ev.appId = appId → ev.event = eventName → startDay ≤ endDay →
        dayMs startDay ≤ ev.timestamp → ev.timestamp ≤ dayMs startDay + (DAY_MS - 1) →
        matchesSummary appId eventName (some startDay) (some endDay) ev = true
        ∧ matchesSummary appId eventName (some (2 * startDay - endDay)) (some startDay) ev
            = true) := by
  refine ⟨rfl, ?_, ?_, ?_, ?_⟩
  · intro hp hc
    simp [calculateEventTrend, trendOf, hp, hc]
  · intro hp hc
    simp [calculateEventTrend, trendOf, hp, Nat.pos_iff_ne_zero.mp hc]
  · intro cur prev hprev
    simp [trendOf, Nat.pos_iff_ne_zero.mp hprev]
  · intro ev _ happ hev hrange hlo hhi
    have happ' : (ev.appId == appId) = true := by simp [happ]
    have hev' : (ev.event == eventName) = true := by simp [hev]
    constructor
    · simp only [matchesSummary, happ', hev', startOk, endOk, Bool.true_and]
      simp only [dayMs, DAY_MS] at hlo hhi hrange ⊢
      rw [decide_eq_true (by omega), decide_eq_true (by omega)]
      rfl
    · simp only [matchesSummary, happ', hev', startOk, endOk, Bool.true_and]
      simp only [dayMs, DAY_MS] at hlo hhi hrange ⊢
      rw [decide_eq_true (by omega), decide_eq_true (by omega)]
      rfl

/-- Witness for `c6_trend_amended`: with a single event on day 11 of the
range days 10-12 the previous window (days 8-10) is empty and the trend is
`{change: 100, trend: up}`. -/
theorem c6_trend_amended_witness :
    calculateEventTrend [mkEvent "appA" "buy" none "desktop" (dayMs 11)] "appA" "buy" 10 12
      = { change := 100, trend := "up" } :=
  (c6_trend_amended [mkEvent "appA" "buy" none "desktop" (dayMs 11)] "appA" "buy" 10 12).2.2.1
    (by decide) (by decide)

/-- C5 counterexample: the claim that a caller-supplied browser or OS value
is never overwritten by the parser-derived one is false — with caller
metadata `{browser: "CallerBrowser", os: "CallerOS"}` and parser output
`{browser: "Chrome", os: "Windows"}`, the stored metadata holds the parser
values, not the caller's. -/
theorem c5_caller_browser_overwritten :
    (buildEventMetadata sampleCallerMeta sampleUA none none "UTC").browser = some "Chrome"
    ∧ (buildEventMetadata sampleCallerMeta sampleUA none none "UTC").browser
        ≠ sampleCallerMeta.browser
    ∧ sampleCallerMeta.browser = some "CallerBrowser"
    ∧ (buildEventMetadata sampleCallerMeta sampleUA none none "UTC").os = some "Windows"
    ∧ (buildEventMetadata sampleCallerMeta sampleUA none none "UTC").os
        ≠ sampleCallerMeta.os
    ∧ sampleCallerMeta.os = some "CallerOS" := by
  refine ⟨rfl, by decide, rfl, rfl, by decide, rfl⟩

/-- C5 (amended): parser-derived browser and OS values take precedence — a
caller-supplied browser or OS is stored only when the parser yields no (or
an empty) name, and the caller-supplied screen size is always preserved
unchanged. -/
theorem c5_parser_precedence (cm : CallerMetadata) (ua : ParsedUserAgent)
    (geo : Option GeoInfo) (acceptLanguage : Option String) (serverTimezone : String) :
    (ua.browser = none →
      (buildEventMetadata cm ua geo acceptLanguage serverTimezone).browser = cm.browser)
    ∧ (∀ b : String, ua.browser = some b → b ≠ "" →
        (buildEventMetadata cm ua geo acceptLanguage serverTimezone).browser = some b)
    ∧ (ua.os = none →
        (buildEventMetadata cm ua geo acceptLanguage serverTimezone).os = cm.os)
    ∧ (∀ o : String, ua.os = some o → o ≠ "" →
        (buildEventMetadata cm ua geo acceptLanguage serverTimezone).os = some o)
    ∧ (buildEventMetadata cm ua geo acceptLanguage serverTimezone).screenSize
        = cm.screenSize := by
  refine ⟨?_, ?_, ?_, ?_, rfl⟩
  · intro h
    simp [buildEventMetadata, jsOrStr, h]
  · intro b hb hne
    simp [buildEventMetadata, jsOrStr, hb, hne]
  · intro h
    simp [buildEventMetadata, jsOrStr, h]
  · intro o ho hne
    simp [buildEventMetadata, jsOrStr, ho, hne]

/-- Witness for `c5_parser_precedence`: the parser's `Chrome` wins over the
caller's value and the caller's screen size is preserved. -/
theorem c5_parser_precedence_witness :
    (buildEventMetadata sampleCallerMeta sampleUA none none "UTC").browser = some "Chrome"
    ∧ (buildEventMetadata sampleCallerMeta sampleUA none none "UTC").screenSize
        = sampleCallerMeta.screenSize :=
  ⟨(c5_parser_precedence sampleCallerMeta sampleUA none none "UTC").2.1 "Chrome" rfl
      (by decide),
   (c5_parser_precedence sampleCallerMeta sampleUA none none "UTC").2.2.2.2⟩

/-- C1: evaluation of the append-path invalidation at a failing input.  The
sweep patterns for application `appA` and an event with user id `u1` are
`event-summary:appA:*`, `user-stats:u1:*` and `analytics:appA:*`; the
user-stats cache key is prefixed by the application id and the app-analytics
key family is named `app-analytics:`, so the sweep — although it succeeds —
leaves both stale entries in place and a subsequent read of either key
family still returns the value computed strictly before the append; only the
event-summary family is invalidated. -/
theorem c1_append_invalidation_misses_user_stats_and_app_analytics :
    cachePatterns "appA" (some "u1") none
      = ["event-summary:appA:", "user-stats:u1:", "analytics:appA:"]
    ∧ userStatsCacheKey "appA" "u1" = "user-stats:appA:u1"
    ∧ appAnalyticsCacheKey "appA" "" "" = "app-analytics:appA::"
    ∧ cacheGet (collectInvalidate c1StaleCache "appA" (some "u1") none)
        (userStatsCacheKey "appA" "u1") = some "user-stats computed before the append"
    ∧ cacheGet (collectInvalidate c1StaleCache "appA" (some "u1") none)
        (appAnalyticsCacheKey "appA" "" "") = some "app analytics computed before the append"
    ∧ cacheGet (collectInvalidate c1StaleCache "appA" (some "u1") none)
        (eventSummaryCacheKey "appA" "click" "" "") = none := by
  refine ⟨by decide, by decide, by decide, by decide, by decide, by decide⟩

/-- C8: on a cache miss each aggregation read path returns the value computed
from the Event Store, and — when the cache write succeeds — stores exactly
that value under its key with the stat-kind TTL (300 s for event summaries,
120 s for user stats, 600 s for app-wide analytics); a failing cache write
is swallowed, leaving the cache untouched and the returned value unchanged. -/
theorem c8_cache_miss_ttl_and_swallowed_write_failure {α β : Type}
    (cache1 : List (String × EnhancedSummary × Nat)) (cache2 : List (String × α × Nat))
    (cache3 : List (String × β × Nat)) (wf1 wf2 wf3 : Bool) (events : List Event)
    (appId eventName userId sdS edS : String) (sd ed : Option Int)
    (computedStats : α) (computedAnalytics : β)
    (h1 : ttlGet cache1 (eventSummaryCacheKey appId eventName (dateStr sd) (dateStr ed)) = none)
    (h2 : ttlGet cache2 (userStatsCacheKey appId userId) = none)
    (h3 : ttlGet cache3 (appAnalyticsCacheKey appId sdS edS) = none) :
    (getEventSummaryFlow cache1 wf1 events appId eventName sd ed).1
      = enhanceEventSummary events appId eventName sd ed
          (getEventSummary events appId eventName sd ed)
    ∧ (wf1 = true → (getEventSummaryFlow cache1 wf1 events appId eventName sd ed).2 = cache1)
    ∧ (wf1 = false → (getEventSummaryFlow cache1 wf1 events appId eventName sd ed).2
        = setEx cache1 (eventSummaryCacheKey appId eventName (dateStr sd) (dateStr ed)) 300
            (enhanceEventSummary events appId eventName sd ed
              (getEventSummary events appId eventName sd ed)))
    ∧ (getUserStatsFlow cache2 wf2 computedStats appId userId).1 = computedStats
    ∧ (wf2 = true → (getUserStatsFlow cache2 wf2 computedStats appId userId).2 = cache2)
    ∧ (wf2 = false → (getUserStatsFlow cache2 wf2 computedStats appId userId).2
        = setEx cache2 (userStatsCacheKey appId userId) 120 computedStats)
    ∧ (getAppAnalyticsFlow cache3 wf3 computedAnalytics appId sdS edS).1 = computedAnalytics
    ∧ (wf3 = true → (getAppAnalyticsFlow cache3 wf3 computedAnalytics appId sdS edS).2 = cache3)
    ∧ (wf3 = false → (getAppAnalyticsFlow cache3 wf3 computedAnalytics appId sdS edS).2
        = setEx cache3 (appAnalyticsCacheKey appId sdS edS) 600 computedAnalytics) := by
  refine ⟨?_, ?_, ?_, ?_, ?_, ?_, ?_, ?_, ?_⟩
  · simp [getEventSummaryFlow, h1]
  · intro hwf
    simp [getEventSummaryFlow, h1, hwf]
  · intro hwf
    simp [getEventSummaryFlow, h1, hwf, CACHE_TTL_EVENTS]
  · simp [getUserStatsFlow, h2]
  · intro hwf
    simp [getUserStatsFlow, h2, hwf]
  · intro hwf
    simp [getUserStatsFlow, h2, hwf, CACHE_TTL_STATS]
  · simp [getAppAnalyticsFlow, h3]
  · intro hwf
    simp [getAppAnalyticsFlow, h3, hwf]
  · intro hwf
    simp [getAppAnalyticsFlow, h3, hwf, CACHE_TTL_GENERAL]

/-- Witness for `c8_cache_miss_ttl_and_swallowed_write_failure` on empty
caches: a successful miss write stores with TTL 600, a failing user-stats
write leaves the cache empty, and the returned summary is the one computed
from the store. -/
theorem c8_cache_miss_witness :
    (getEventSummaryFlow ([] : List (String × EnhancedSummary × Nat)) false []
        "appA" "click" none none).1
      = enhanceEventSummary [] "appA" "click" none none
          (getEventSummary [] "appA" "click" none none)
    ∧ (getUserStatsFlow ([] : List (String × Nat × Nat)) true 7 "appA" "u1").2 = []
    ∧ (getAppAnalyticsFlow ([] : List (String × Nat × Nat)) false 9 "appA" "" "").2
        = setEx [] (appAnalyticsCacheKey "appA" "" "") 600 9 := by
  have h := c8_cache_miss_ttl_and_swallowed_write_failure
    ([] : List (String × EnhancedSummary × Nat)) ([] : List (String × Nat × Nat))
    ([] : List (String × Nat × Nat)) false true false [] "appA" "click" "u1" "" ""
    none none 7 9 rfl rfl rfl
  exact ⟨h.1, h.2.2.2.2.1 rfl, h.2.2.2.2.2.2.2.2 rfl⟩

theorem minuteOfHour_nonneg (t : Int) : 0 ≤ minuteOfHour t := by
  unfold minuteOfHour HOUR_MS MINUTE_MS
  exact Int.ediv_nonneg (Int.emod_nonneg t (by norm_num)) (by norm_num)

theorem minuteOfHour_lt (t : Int) : minuteOfHour t < 60 := by
  unfold minuteOfHour HOUR_MS MINUTE_MS
  rw [Int.ediv_lt_iff_lt_mul (by norm_num)]
  have := Int.emod_lt_of_pos t (show (0 : ℤ) < 3600000 by norm_num)
  omega

theorem length_le_sixty_of_nodup_minutes (l : List Int) (hn : l.Nodup)
    (hb : ∀ x ∈ l, 0 ≤ x ∧ x < 60) : l.length ≤ 60 := by
  classical
  have hcard : l.toFinset.card = l.length := List.toFinset_card_of_nodup hn
  have hsub : l.toFinset ⊆ Finset.Ico (0 : ℤ) 60 := by
    intro x hx
    rw [List.mem_toFinset] at hx
    rcases hb x hx with ⟨h1, h2⟩
    exact Finset.mem_Ico.mpr ⟨h1, h2⟩
  have hle := Finset.card_le_card hsub
  rw [hcard, Int.card_Ico] at hle
  have h60 : ((60 : ℤ) - 0).toNat = 60 := by decide
  rw [h60] at hle
  exact hle

theorem sortBucketsDesc_perm (l : List RTBucket) : (sortBucketsDesc l).Perm l :=
  List.perm_insertionSort _ l

theorem sortBucketsDesc_sorted (l : List RTBucket) :
    List.Pairwise (fun a b : RTBucket => b.minute ≤ a.minute) (sortBucketsDesc l) := by
  haveI : IsTotal RTBucket (fun a b => b.minute ≤ a.minute) :=
    ⟨fun a b => le_total b.minute a.minute⟩
  haveI : IsTrans RTBucket (fun a b => b.minute ≤ a.minute) :=
    ⟨fun _ _ _ hab hbc => le_trans hbc hab⟩
  exact List.sorted_insertionSort _ l

/-- C7 counterexample: the bucket list is not chronologically ordered.  At
observation minute 690 (11:30), the trailing hour holds an event at minute
659 (10:59, minute-of-hour 59) and a strictly newer one at minute 661
(11:01, minute-of-hour 1); the returned order is minute-of-hour ascending
`[1, 59]`, which puts the newer event's bucket before the older event's. -/
theorem c7_buckets_not_chronological :
    ¬ ChronoOrdered rtSample "appA" rtNow (realTimeBuckets rtSample "appA" rtNow) := by
  intro h
  have e : realTimeBuckets rtSample "appA" rtNow
      = [bucketOfMinute (rtSample.filter (inRealtimeWindow "appA" rtNow)) 1,
         bucketOfMinute (rtSample.filter (inRealtimeWindow "appA" rtNow)) 59] := by decide
  unfold ChronoOrdered at h
  rw [e] at h
  rcases List.pairwise_cons.mp h with ⟨hrel, -⟩
  have hle := hrel _ (List.mem_cons_self _ _) rtNewEvent (by decide) rtOldEvent (by decide)
    (by decide) (by decide)
  exact absurd hle (by decide)

/-- C7 (amended): the realtime result is bucketed by minute-of-hour and
ordered by strictly increasing minute-of-hour value — which coincides with
chronological order only when the trailing window does not cross an hour
boundary — and the bucket keys are exactly the distinct minute-of-hour values
of the events passing the window filter `timestamp ≥ now − 1 hour`. -/
theorem c7_buckets_minute_of_hour_ascending (events : List Event) (appId : String)
    (now : Int) :
    ((realTimeBuckets events appId now).map (fun b => b.minute)).Pairwise (· < ·)
    ∧ ((realTimeBuckets events appId now).map (fun b => b.minute)).Perm
        (((events.filter (inRealtimeWindow appId now)).map
            (fun e => minuteOfHour e.timestamp)).dedup) := by
  classical
  set matched := events.filter (inRealtimeWindow appId now) with hm
  set minutes := (matched.map (fun e => minuteOfHour e.timestamp)).dedup with hmin
  set buckets := minutes.map (bucketOfMinute matched) with hb
  set sorted := sortBucketsDesc buckets with hs
  have hreal : realTimeBuckets events appId now = (sorted.take 60).reverse := rfl
  have hperm : sorted.Perm buckets := sortBucketsDesc_perm buckets
  have hnodupmin : minutes.Nodup := by
    rw [hmin]
    exact List.nodup_dedup _
  have hbounds : ∀ x ∈ minutes, 0 ≤ x ∧ x < 60 := by
    intro x hx
    rw [hmin] at hx
    rw [List.mem_dedup] at hx
    rcases List.mem_map.mp hx with ⟨e1, _, heq⟩
    rw [← heq]
    exact ⟨minuteOfHour_nonneg _, minuteOfHour_lt _⟩
  have hlens : sorted.length ≤ 60 := by
    rw [hperm.length_eq, hb, List.length_map]
    exact length_le_sixty_of_nodup_minutes minutes hnodupmin hbounds
  have htake : sorted.take 60 = sorted := List.take_of_length_le hlens
  have hmapmin : buckets.map (fun b => b.minute) = minutes := by
    rw [hb, List.map_map]
    exact List.map_id' minutes
  have hmapPerm : (sorted.map (fun b => b.minute)).Perm minutes := by
    rw [← hmapmin]
    exact hperm.map _
  have hPwmap : (sorted.map (fun b => b.minute)).Pairwise (fun x y : Int => y ≤ x) :=
    List.pairwise_map.mpr (sortBucketsDesc_sorted buckets)
  have hnodupS : (sorted.map (fun b => b.minute)).Nodup :=
    hmapPerm.nodup_iff.mpr hnodupmin
  have hstrict : (sorted.map (fun b => b.minute)).Pairwise (fun x y : Int => y < x) :=
    (hPwmap.and hnodupS).imp (fun hp => lt_of_le_of_ne hp.1 (Ne.symm hp.2))
  constructor
  · rw [hreal, htake, List.map_reverse]
    exact List.pairwise_reverse.mpr hstrict
  · rw [hreal, htake, List.map_reverse]
    exact ((sorted.map (fun b => b.minute)).reverse_perm).trans hmapPerm

end AnalyticsEngine
